import Mathlib

/-!
Verification of the work-queue and agent-dispatch core of the
`agent-orchestrator` repository.

The definitions below are a shallow embedding of the JavaScript source:

* `src/queue/isolated.js` — the project-scoped `WorkItemStore`
  (`enqueue`, `list`, `get`, `update`, `claim`, `ready`, `complete`,
  `stats`).  Every mutating operation there runs inside
  `withProjectLock`, a promise-chain mutex that serialises the whole
  load-modify-save body per project; the embedding therefore models each
  operation as an atomic function from queue state to queue state.
  Timestamps (`new Date().toISOString()`) are modelled as a `Nat`
  parameter `now`; the random hex ids of `generateId()` as a `Nat`
  parameter supplied by the caller.
* `src/queue/index.js` — the non-project-scoped store variant; only its
  `stats` differs in a way the claims care about (buckets built from the
  statuses actually present).
* `src/agents/index.js` — `AgentManager.spawn` / `checkCompletion`; the
  filesystem is modelled as an association list from path to file
  content.
* `src/executor/index.js` — the `Executor` dispatch engine
  (`executeItem`, `executeNext`, `executeProject`, `_spawn`,
  `_processQueue`, and the completed branch of `checkExecution`).
-/

namespace Orchestrator

/-- Work-item priority, `priority ∈ {urgent, high, medium, low}`. -/
inductive Priority
  | urgent
  | high
  | medium
  | low
deriving DecidableEq, Repr

/-- Numeric rank of a priority as used by `executeNext`'s sort
(`{ urgent: 0, high: 1, medium: 2, low: 3 }`); smaller is more urgent. -/
def priorityRank : Priority → Nat
  | Priority.urgent => 0
  | Priority.high => 1
  | Priority.medium => 2
  | Priority.low => 3

/-- Work-item lifecycle status (spec §3 / §4.1). -/
inductive Status
  | inbox
  | planning
  | ready
  | in_flight
  | review
  | blocked
  | done
deriving DecidableEq, Repr

/-- An artifact record as produced by `collectArtifacts` and stored by
`complete`. -/
structure Artifact where
  aid : String
  kind : String
  name : String
  path : String
  size : Nat
deriving DecidableEq, Repr

/-- A work item, mirroring the object literal built in `enqueue`
(`src/queue/isolated.js` lines 82–97) plus the fields later merged in by
`claim` (`assignedAgentId`) and `complete` (`completedAt`). -/
structure WorkItem where
  id : Nat
  title : String
  description : String
  acceptanceCriteria : List String
  status : Status
  priority : Priority
  complexity : String
  createdAt : Nat
  updatedAt : Nat
  createdBy : String
  artifacts : List Artifact
  blockedBy : List Nat
  blocks : List Nat
  output : Option String
  assignedAgentId : Option String
  completedAt : Option Nat
deriving DecidableEq, Repr

/-- The per-project queue file content: `{ items: [...], version: 1 }`
(the version tag carries no behaviour). -/
structure Queue where
  items : List WorkItem
deriving DecidableEq, Repr

/-- The caller-supplied part of `enqueue`'s argument; `none` models an
absent JS property, replaced by the `||` defaults of `enqueue`. -/
structure EnqueueInput where
  title : String
  description : Option String := none
  acceptanceCriteria : Option (List String) := none
  priority : Option Priority := none
  complexity : Option String := none
  createdBy : Option String := none
  output : Option String := none

/-- The work item built by `enqueue` (`src/queue/isolated.js` 82–97):
fresh id, caller fields with defaults, `status: 'inbox'`, equal
created/updated timestamps, empty artifacts and dependency lists. -/
def mkWorkItem (gid : Nat) (now : Nat) (input : EnqueueInput) : WorkItem :=
  { id := gid
    title := input.title
    description := input.description.getD ""
    acceptanceCriteria := input.acceptanceCriteria.getD []
    status := Status.inbox
    priority := input.priority.getD Priority.medium
    complexity := input.complexity.getD "m"
    createdAt := now
    updatedAt := now
    createdBy := input.createdBy.getD "unknown"
    artifacts := []
    blockedBy := []
    blocks := []
    output := input.output
    assignedAgentId := none
    completedAt := none }

/-- `enqueue(projectId, item)` under the project lock: build the item,
push it onto `queue.items`, save, return it.  Always succeeds. -/
def enqueue (gid : Nat) (now : Nat) (q : Queue) (input : EnqueueInput) :
    Queue × WorkItem :=
  let w := mkWorkItem gid now input
  ({ items := q.items ++ [w] }, w)

/-- `list(projectId, status)` — all items, optionally filtered. -/
def list (q : Queue) (status : Option Status) : List WorkItem :=
  match status with
  | none => q.items
  | some s => q.items.filter (fun it => decide (it.status = s))

/-- `get(projectId, id)` — `queue.items.find(item => item.id === id)`. -/
def get (q : Queue) (id : Nat) : Option WorkItem :=
  q.items.find? (fun it => decide (it.id = id))

/-- The partial-field updates passed to `update` by the repository's
callers (`ready`, `complete`, `claim`-style merges, and the executor's
`in_flight` / `review` transitions).  A `none` field is absent from the
JS `updates` object and leaves the item's field unchanged. -/
structure Updates where
  status : Option Status := none
  artifacts : Option (List Artifact) := none
  assignedAgentId : Option (Option String) := none
  completedAt : Option Nat := none

/-- The merge `{ ...queue.items[index], ...updates, updatedAt: now }`:
supplied fields overwrite, then `updatedAt` is stamped last. -/
def applyUpdates (w : WorkItem) (u : Updates) (now : Nat) : WorkItem :=
  { w with
    status := u.status.getD w.status
    artifacts := u.artifacts.getD w.artifacts
    assignedAgentId := u.assignedAgentId.getD w.assignedAgentId
    completedAt := (u.completedAt.map some).getD w.completedAt
    updatedAt := now }

/-- `findIndex(item => item.id === id)` followed by replacing that slot:
rewrites the first item whose id matches, returning the new list and the
new item, or `none` when no item matches (JS `findIndex === -1`). -/
def setById (id : Nat) (f : WorkItem → WorkItem) :
    List WorkItem → Option (List WorkItem × WorkItem)
  | [] => none
  | w :: ws =>
    if w.id = id then
      some (f w :: ws, f w)
    else
      match setById id f ws with
      | none => none
      | some (ws', r) => some (w :: ws', r)

/-- `update(projectId, id, updates)` under the project lock: merge into
the first item with the given id and stamp `updatedAt`, or throw
`Work item ... not found`. -/
def update (now : Nat) (q : Queue) (id : Nat) (u : Updates) :
    Except String (Queue × WorkItem) :=
  match setById id (fun w => applyUpdates w u now) q.items with
  | none => Except.error ("Work item " ++ toString id ++ " not found")
  | some (items', w') => Except.ok ({ items := items' }, w')

/-- `ready(projectId, id)` — `update(projectId, id, { status: 'ready' })`
with no check of the item's current status. -/
def ready (now : Nat) (q : Queue) (id : Nat) :
    Except String (Queue × WorkItem) :=
  update now q id { status := some Status.ready }

/-- `complete(projectId, id, artifacts)` — an unconditional update to
`status: 'done'` with the artifacts attached, the assignment cleared and
`completedAt` stamped; no check of the item's current status. -/
def complete (now : Nat) (q : Queue) (id : Nat) (arts : List Artifact) :
    Except String (Queue × WorkItem) :=
  update now q id
    { status := some Status.done
      artifacts := some arts
      assignedAgentId := some none
      completedAt := some now }

/-- The predicate of `claim`'s scan:
`item.status === 'ready' && item.priority === priority`. -/
def readyWith (p : Priority) (it : WorkItem) : Bool :=
  decide (it.status = Status.ready ∧ it.priority = p)

/-- The scan of `claim`: for each priority in `['urgent', 'high',
'medium', 'low']`, `find` the first item with `status === 'ready'` and
that priority; the first bucket that yields an item wins. -/
def findNextReady (items : List WorkItem) : Option WorkItem :=
  match items.find? (readyWith Priority.urgent) with
  | some w => some w
  | none =>
    match items.find? (readyWith Priority.high) with
    | some w => some w
    | none =>
      match items.find? (readyWith Priority.medium) with
      | some w => some w
      | none => items.find? (readyWith Priority.low)

/-- The merge `claim` applies at the claimed index:
`{ ...item, status: 'in_flight', assignedAgentId: agentId, updatedAt }`. -/
def claimMark (now : Nat) (agentId : String) (w : WorkItem) : WorkItem :=
  { w with
    status := Status.in_flight
    assignedAgentId := some agentId
    updatedAt := now }

/-- `claim(projectId, agentId)` under the project lock: scan for the next
ready item in priority order, return `null` when none, otherwise rewrite
the first item carrying the found item's id with the `in_flight` merge
and return the rewritten item. -/
def claim (now : Nat) (q : Queue) (agentId : String) :
    Queue × Option WorkItem :=
  match findNextReady q.items with
  | none => (q, none)
  | some w =>
    match setById w.id (claimMark now agentId) q.items with
    | none => (q, none)
    | some (items', w') => ({ items := items' }, some w')

/-- The merged item produced by `complete`: status `done`, artifacts
overwritten, assignment cleared, `completedAt` and `updatedAt`
stamped. -/
def completeMark (now : Nat) (arts : List Artifact) (w : WorkItem) : WorkItem :=
  { w with
    status := Status.done
    artifacts := arts
    assignedAgentId := none
    completedAt := some now
    updatedAt := now }

/-- The merged item produced by `ready`: status `ready` and `updatedAt`
stamped, all other fields untouched. -/
def readyMark (now : Nat) (w : WorkItem) : WorkItem :=
  { w with
    status := Status.ready
    updatedAt := now }

/-- The five fixed buckets reported by the project-scoped `stats`
(`src/queue/isolated.js` 204–217). -/
structure ByStatusCounts where
  inbox : Nat
  ready : Nat
  in_flight : Nat
  done : Nat
  blocked : Nat
deriving DecidableEq, Repr

/-- Project-scoped `stats()`: total item count plus the five fixed
status buckets — `planning` and `review` items are counted in no
bucket. -/
def statsIsolated (q : Queue) : Nat × ByStatusCounts :=
  (q.items.length,
   { inbox := (q.items.filter (fun i => decide (i.status = Status.inbox))).length
     ready := (q.items.filter (fun i => decide (i.status = Status.ready))).length
     in_flight := (q.items.filter (fun i => decide (i.status = Status.in_flight))).length
     done := (q.items.filter (fun i => decide (i.status = Status.done))).length
     blocked := (q.items.filter (fun i => decide (i.status = Status.blocked))).length })

/-- Sum of the five fixed buckets. -/
def sumByStatus (b : ByStatusCounts) : Nat :=
  b.inbox + b.ready + b.in_flight + b.done + b.blocked

/-- One step of the non-scoped `stats` fold:
`byStatus[item.status] = (byStatus[item.status] || 0) + 1`, with JS
object key-insertion order modelled by an association list. -/
def bumpStatus : List (Status × Nat) → Status → List (Status × Nat)
  | [], s => [(s, 1)]
  | (t, n) :: rest, s =>
    if t = s then (t, n + 1) :: rest else (t, n) :: bumpStatus rest s

/-- The `byStatus` object built by the non-scoped `stats`
(`src/queue/index.js` 205–218): buckets only for the statuses actually
present. -/
def byStatusGeneric (items : List WorkItem) : List (Status × Nat) :=
  items.foldl (fun acc it => bumpStatus acc it.status) []

/-- Sum of the counts of an association-list `byStatus` object. -/
def sumCounts : List (Status × Nat) → Nat
  | [] => 0
  | p :: rest => p.2 + sumCounts rest

/-- The invariant that every item's `updatedAt` is no earlier than its
`createdAt`. -/
def TimeInv (q : Queue) : Prop :=
  ∀ it ∈ q.items, it.createdAt ≤ it.updatedAt

/-- The `(id, createdAt)` stamps of the queue, in list order; store
mutations other than `enqueue` must leave this list untouched
(`createdAt` immutability). -/
def createdStamp (q : Queue) : List (Nat × Nat) :=
  q.items.map (fun it => (it.id, it.createdAt))

/-- Modelled from the spec (§4.1 state diagram): the allowed transition
edges `inbox → {ready ⇄ planning} → ready → in_flight →
{review → done, blocked → re-readied}`.  This is a spec-side relation
used to compare the code's behaviour against; there is no corresponding
definition in the source. -/
def specEdge : Status → Status → Bool
  | Status.inbox, Status.ready => true
  | Status.inbox, Status.planning => true
  | Status.planning, Status.ready => true
  | Status.ready, Status.planning => true
  | Status.ready, Status.in_flight => true
  | Status.in_flight, Status.review => true
  | Status.in_flight, Status.blocked => true
  | Status.review, Status.done => true
  | Status.blocked, Status.ready => true
  | _, _ => false

/-- An `AgentManager` session record (`src/agents/index.js` 99–107):
id, owning work item, status string, and the two isolated directories. -/
structure Session where
  id : String
  workItemId : Nat
  status : String
  workspaceDir : String
  artifactsDir : String
deriving DecidableEq, Repr

/-- `path.join(AGENTS_DIR, agentId, 'workspace')`, with the data root
abbreviated. -/
def agentWorkspaceDir (agentId : String) : String :=
  "data/agents/" ++ agentId ++ "/workspace"

/-- `path.join(AGENTS_DIR, agentId, 'artifacts')`. -/
def agentArtifactsDir (agentId : String) : String :=
  "data/agents/" ++ agentId ++ "/artifacts"

/-- The session object `AgentManager.spawn` stores in its `sessions`
map: fresh agent id, the work item, `status: 'starting'`, and the two
workspace paths. -/
def mkSession (agentId : String) (workItemId : Nat) : Session :=
  { id := agentId
    workItemId := workItemId
    status := "starting"
    workspaceDir := agentWorkspaceDir agentId
    artifactsDir := agentArtifactsDir agentId }

/-- The filesystem as seen by the completion probe: an association list
from absolute path to file content; a present entry is a readable file
(`fs.access` succeeds and `fs.readFile` yields the content). -/
def fsRead (fsys : List (String × String)) (p : String) : Option String :=
  (fsys.find? (fun e => decide (e.1 = p))).map (fun e => e.2)

/-- Result of `AgentManager.checkCompletion`. -/
inductive CheckResult
  | completed (completionReport : String)
  | blocked (blockerReport : String)
  | working
deriving DecidableEq, Repr

/-- `AgentManager.checkCompletion(agentId)` (`src/agents/index.js`
170–191): `null` when the session is unknown; otherwise probe
`artifactsDir/COMPLETION.md` first (it takes priority), then
`workspaceDir/BLOCKED.md`, else report still working. -/
def checkCompletion (fsys : List (String × String)) (sessions : List Session)
    (agentId : String) : Option CheckResult :=
  match sessions.find? (fun s => decide (s.id = agentId)) with
  | none => none
  | some session =>
    match fsRead fsys (session.artifactsDir ++ "/COMPLETION.md") with
    | some content => some (CheckResult.completed content)
    | none =>
      match fsRead fsys (session.workspaceDir ++ "/BLOCKED.md") with
      | some content => some (CheckResult.blocked content)
      | none => some CheckResult.working

/-- An entry of the executor's `running` map: agent id and the work item
it executes (`this.running.set(agentContext.agentId, ...)`). -/
structure RunningEntry where
  agentId : String
  workItemId : Nat
deriving DecidableEq, Repr

/-- The state the `Executor` claims touch: the configured cap, the
`running` map (as an insertion-ordered list), the `pendingSpawns` id
queue, the `AgentManager.sessions` table, and the work-item store.  The
execution mode is `external`/`spawn` (the session is handed out and
stays running until a later completion check). -/
structure ExecState where
  maxConcurrent : Nat
  running : List RunningEntry
  pendingSpawns : List Nat
  sessions : List Session
  queue : Queue
deriving DecidableEq, Repr

/-- `Executor._spawn(workItem)` (`src/executor/index.js` 138–179) up to
the mode dispatch: `agentManager.spawn` records the session first, then
`queue.update(workItem.id, { status: 'in_flight', assignedAgentId })`;
only if that update succeeds is the agent recorded in `running`.  An
update failure propagates with no rollback of the recorded session.
The fresh agent id generated by `crypto.randomBytes` is a parameter. -/
def spawnOne (now : Nat) (agentId : String) (st : ExecState) (w : WorkItem) :
    ExecState × Except String Unit :=
  match update now st.queue w.id
      { status := some Status.in_flight,
        assignedAgentId := some (some agentId) } with
  | Except.error e =>
    ({ st with sessions := st.sessions ++ [mkSession agentId w.id] },
     Except.error e)
  | Except.ok (q2, _) =>
    ({ st with
        sessions := st.sessions ++ [mkSession agentId w.id]
        queue := q2
        running := st.running ++ [{ agentId := agentId, workItemId := w.id }] },
     Except.ok ())

/-- Sequential spawning of a batch (`for (const item of toSpawn) await
this._spawn(item)`), aborting on the first thrown error; each spawn
consumes the next fresh agent id. -/
def spawnAll (now : Nat) (st : ExecState) :
    List (String × WorkItem) → ExecState × Except String Unit
  | [] => (st, Except.ok ())
  | (a, w) :: rest =>
    match spawnOne now a st w with
    | (st1, Except.error e) => (st1, Except.error e)
    | (st1, Except.ok _) => spawnAll now st1 rest

/-- Stable insertion of one item into a list ascending by
`priorityRank`; equal ranks keep their relative order, matching the
stable JS `Array.sort((a, b) => rank[a.priority] - rank[b.priority])`. -/
def insertByRank (a : WorkItem) : List WorkItem → List WorkItem
  | [] => [a]
  | b :: bs =>
    if priorityRank a.priority < priorityRank b.priority then a :: b :: bs
    else b :: insertByRank a bs

/-- Stable sort by priority rank used by `executeNext`. -/
def sortByPriority : List WorkItem → List WorkItem
  | [] => []
  | a :: as => insertByRank a (sortByPriority as)

/-- `Executor.executeNext(count)` (`src/executor/index.js` 110–133):
list the ready items, sort by priority, spawn the first `count` of them.
No check of `running.size` against `maxConcurrent` is performed. -/
def executeNext (now : Nat) (st : ExecState) (count : Nat)
    (agentIds : List String) : ExecState × Except String Unit :=
  let readyItems := st.queue.items.filter (fun it => decide (it.status = Status.ready))
  let toSpawn := (sortByPriority readyItems).take count
  spawnAll now st (agentIds.zip toSpawn)

/-- `Executor.executeItem(workItemId)` (`src/executor/index.js` 41–60):
find the item, reject statuses outside `{ready, inbox, planning}`,
auto-ready `inbox`/`planning` items, then `_spawn`.  (The JS lookup also
accepts an id prefix; with exact numeric ids the lookup is by
equality.)  No check of `running.size` against the cap. -/
def executeItem (now : Nat) (st : ExecState) (workItemId : Nat)
    (agentId : String) : ExecState × Except String Unit :=
  match st.queue.items.find? (fun i => decide (i.id = workItemId)) with
  | none => (st, Except.error ("Work item " ++ toString workItemId ++ " not found"))
  | some w =>
    if w.status = Status.ready ∨ w.status = Status.inbox ∨ w.status = Status.planning then
      if w.status = Status.ready then
        spawnOne now agentId st w
      else
        match ready now st.queue w.id with
        | Except.error e => (st, Except.error e)
        | Except.ok (q2, _) => spawnOne now agentId { st with queue := q2 } w
    else
      (st, Except.error ("Item " ++ toString workItemId ++ " cannot execute"))

/-- `projects.readyAll` as invoked from `executeProject`: call
`queue.ready` on every project item whose status is `inbox` or
`planning`, threading the store state; an update failure propagates. -/
def readyAllItems (now : Nat) (q : Queue) :
    List WorkItem → Except String Queue
  | [] => Except.ok q
  | w :: ws =>
    if w.status = Status.inbox ∨ w.status = Status.planning then
      match ready now q w.id with
      | Except.error e => Except.error e
      | Except.ok (q2, _) => readyAllItems now q2 ws
    else
      readyAllItems now q ws

/-- The eligibility filter of `executeProject`:
`['ready', 'inbox', 'planning'].includes(i.status)`. -/
def eligStatus (i : WorkItem) : Bool :=
  decide (i.status = Status.ready ∨ i.status = Status.inbox ∨
    i.status = Status.planning)

/-- `Executor.executeProject(projectId)` (`src/executor/index.js`
65–105) given the project's work-item snapshot `projItems`: ready all
`inbox`/`planning` items, take the first `maxConcurrent` eligible items
to spawn, push the ids of the rest onto `pendingSpawns` (in order), and
spawn the initial batch.  (The per-project `config.maxConcurrent`
override is modelled by the state's `maxConcurrent`.) -/
def executeProject (now : Nat) (st : ExecState) (projItems : List WorkItem)
    (agentIds : List String) : ExecState × Except String Unit :=
  match readyAllItems now st.queue projItems with
  | Except.error e => (st, Except.error e)
  | Except.ok q1 =>
    spawnAll now
      { st with
        queue := q1
        pendingSpawns := st.pendingSpawns ++
          ((projItems.filter eligStatus).drop st.maxConcurrent).map
            (fun i => i.id) }
      (agentIds.zip ((projItems.filter eligStatus).take st.maxConcurrent))

/-- `Executor._processQueue` (`src/executor/index.js` 440–448): do
nothing when `pendingSpawns` is empty or `running.size ≥ maxConcurrent`;
otherwise `shift` the oldest pending id and `executeItem` it. -/
def processQueue (now : Nat) (st : ExecState) (agentId : String) :
    ExecState × Except String Unit :=
  match st.pendingSpawns with
  | [] => (st, Except.ok ())
  | nextId :: rest =>
    if st.maxConcurrent ≤ st.running.length then (st, Except.ok ())
    else executeItem now { st with pendingSpawns := rest } nextId agentId

/-- The `completed` branch of `Executor.checkExecution`
(`src/executor/index.js` 340–384), reached when the completion probe
found the marker: update the work item to `review` with the collected
artifacts (passed as `arts`), delete the agent from `running`, then
`_processQueue` (which may dispatch the next pending item under the
fresh id `nextAgentId`). -/
def finishCompleted (now : Nat) (st : ExecState) (agentId : String)
    (arts : List Artifact) (nextAgentId : String) :
    ExecState × Except String Unit :=
  match st.sessions.find? (fun s => decide (s.id = agentId)) with
  | none => (st, Except.error "Agent session not found")
  | some session =>
    match update now st.queue session.workItemId
        { status := some Status.review, artifacts := some arts } with
    | Except.error e => (st, Except.error e)
    | Except.ok (q2, _) =>
      processQueue now
        { st with
          queue := q2
          running := st.running.filter (fun r => decide (¬ r.agentId = agentId)) }
        nextAgentId

/-- The full contract of `claim` as stated by the spec: the scan returns
`null` exactly when no item is ready; otherwise the queue decomposes
around the claimed item, which was ready, is returned and stored with
the `in_flight` merge applied, has the best priority rank among all
ready items, and is the earliest item of its priority class in insertion
order (earlier items of the list are never ready with the same
priority). -/
def ClaimSpec (now : Nat) (agentId : String) (q : Queue) : Prop :=
  (((claim now q agentId).2 = none) ↔ ∀ it ∈ q.items, ¬ it.status = Status.ready) ∧
  (∀ x, (claim now q agentId).2 = some x →
    ∃ pre w post,
      q.items = pre ++ w :: post ∧
      w.status = Status.ready ∧
      x = claimMark now agentId w ∧
      (claim now q agentId).1.items = pre ++ x :: post ∧
      (∀ it ∈ q.items, it.status = Status.ready →
        priorityRank w.priority ≤ priorityRank it.priority) ∧
      (∀ b ∈ pre, ¬ (b.status = Status.ready ∧ b.priority = w.priority)))

/-- A ready work item used by the concrete witness states (fresh id and
priority supplied, all other fields as `enqueue` would create them). -/
def sampleReady (i : Nat) (p : Priority) : WorkItem :=
  { mkWorkItem i 0 { title := "task" } with
      status := Status.ready, priority := p }

/-- Witness queue echoing Scenario A: three ready items enqueued with
priorities low, urgent, medium (insertion order 1, 2, 3). -/
def exQueueA : Queue :=
  { items := [sampleReady 1 Priority.low, sampleReady 2 Priority.urgent,
              sampleReady 3 Priority.medium] }

/-- Witness queue for the double-claim check: two ready items of equal
priority. -/
def exQueueB : Queue :=
  { items := [sampleReady 1 Priority.medium, sampleReady 2 Priority.medium] }

/-- A work item freshly enqueued with status `inbox` (all `enqueue`
defaults). -/
def exInboxItem : WorkItem := mkWorkItem 1 0 { title := "task" }

/-- A one-item queue whose item is still in `inbox`. -/
def exQueueInbox : Queue := { items := [exInboxItem] }

/-- A work item already in status `done`. -/
def exDoneItem : WorkItem :=
  { mkWorkItem 2 0 { title := "done-task" } with status := Status.done }

/-- A one-item queue whose item is `done`. -/
def exQueueDone : Queue := { items := [exDoneItem] }

/-- A work item in status `planning`. -/
def exPlanningItem : WorkItem :=
  { mkWorkItem 3 0 { title := "plan-task" } with status := Status.planning }

/-- A one-item queue whose item is `planning`. -/
def exQueuePlanning : Queue := { items := [exPlanningItem] }

/-- The session of the Scenario C witness. -/
def exSession : Session := mkSession "a1" 1

/-- A filesystem holding only the blocked marker of that session's
workspace (no completion marker). -/
def exFsBlocked : List (String × String) :=
  [(agentWorkspaceDir "a1" ++ "/BLOCKED.md", "stuck: need credentials")]

/-- Three ready items of equal priority, ids 1, 2, 3. -/
def exReadyQueue3 : Queue :=
  { items := [sampleReady 1 Priority.medium, sampleReady 2 Priority.medium,
              sampleReady 3 Priority.medium] }

/-- An idle executor with `maxConcurrent = 2` over the three-item ready
queue. -/
def exExec0 : ExecState :=
  { maxConcurrent := 2, running := [], pendingSpawns := [], sessions := []
    queue := exReadyQueue3 }

/-- State after a first `executeNext(1)`. -/
def exExec1 : ExecState := (executeNext 10 exExec0 1 ["a"]).1

/-- State after a second `executeNext(1)`. -/
def exExec2 : ExecState := (executeNext 11 exExec1 1 ["b"]).1

/-- State after a third `executeNext(1)`: three running sessions under a
cap of two. -/
def exExec3 : ExecState := (executeNext 12 exExec2 1 ["c"]).1

/-- An executor whose store is empty (any dispatch's store update must
fail with NotFound). -/
def exExecEmptyQ : ExecState :=
  { maxConcurrent := 2, running := [], pendingSpawns := [], sessions := []
    queue := { items := [] } }

/-- A work item absent from the empty store. -/
def exGhostItem : WorkItem := sampleReady 7 Priority.medium

/-- The result of completing the inbox item: status jumps straight to
`done`, assignment cleared, `completedAt` stamped. -/
def exInboxItemDone : WorkItem :=
  { exInboxItem with
      status := Status.done
      artifacts := []
      assignedAgentId := none
      completedAt := some 3
      updatedAt := 3 }

section Lemmas

/-- Characterisation of a successful `find?`: the list splits at the
first element satisfying the predicate. -/
lemma find?_decomp {α : Type} {p : α → Bool} {l : List α} {a : α}
    (h : l.find? p = some a) :
    ∃ pre post, l = pre ++ a :: post ∧ p a = true ∧ ∀ b ∈ pre, p b = false := by
  induction l with
  | nil => simp [List.find?] at h
  | cons x xs ih =>
    cases hx : p x with
    | true =>
      rw [List.find?_cons_of_pos _ hx] at h
      refine ⟨[], xs, ?_, ?_, ?_⟩ <;> simp_all
    | false =>
      rw [List.find?_cons_of_neg _ (by simp [hx])] at h
      obtain ⟨pre, post, hl, hpa, hpre⟩ := ih h
      refine ⟨x :: pre, post, by simp [hl], hpa, ?_⟩
      intro b hb
      rcases List.mem_cons.1 hb with rfl | hb
      · exact hx
      · exact hpre b hb

/-- `setById` fails exactly when no item carries the id. -/
lemma setById_eq_none {id : Nat} {f : WorkItem → WorkItem} {l : List WorkItem} :
    setById id f l = none ↔ ∀ w ∈ l, ¬ w.id = id := by
  induction l with
  | nil => simp [setById]
  | cons x xs ih =>
    by_cases hx : x.id = id
    · simp [setById, hx]
    · constructor
      · intro h w hw
        simp only [setById, hx, if_false] at h
        rcases List.mem_cons.1 hw with rfl | hw
        · exact hx
        · cases hrec : setById id f xs with
          | none => exact ih.1 hrec w hw
          | some r => rw [hrec] at h; cases r; simp at h
      · intro hall
        have h2 : setById id f xs = none :=
          ih.2 (fun w hw => hall w (List.mem_cons_of_mem x hw))
        simp [setById, hx, h2]

/-- Characterisation of a successful `setById`: the list splits at the
first item carrying the id, which is rewritten in place. -/
lemma setById_some_decomp {id : Nat} {f : WorkItem → WorkItem}
    {l l' : List WorkItem} {w' : WorkItem}
    (h : setById id f l = some (l', w')) :
    ∃ pre w post, l = pre ++ w :: post ∧ (∀ b ∈ pre, ¬ b.id = id) ∧
      w.id = id ∧ w' = f w ∧ l' = pre ++ f w :: post := by
  induction l generalizing l' w' with
  | nil => simp [setById] at h
  | cons x xs ih =>
    by_cases hx : x.id = id
    · simp only [setById, hx, if_true, Option.some.injEq, Prod.mk.injEq] at h
      exact ⟨[], x, xs, by simp, by simp, hx, h.2.symm, by simp [h.1.symm]⟩
    · simp only [setById, hx, if_false] at h
      cases hrec : setById id f xs with
      | none => rw [hrec] at h; cases h
      | some r =>
        cases r with
        | mk ws' r' =>
          rw [hrec] at h
          simp only [Option.some.injEq, Prod.mk.injEq] at h
          obtain ⟨pre, w, post, hl, hpre, hid, hw', hws'⟩ := ih hrec
          refine ⟨x :: pre, w, post, by simp [hl], ?_, hid, by simp [hw', h.2.symm], ?_⟩
          · intro b hb
            rcases List.mem_cons.1 hb with rfl | hb
            · exact hx
            · exact hpre b hb
          · simp [← h.1, hws']

/-- On a list whose prefix avoids the id, `setById` rewrites exactly the
marked element. -/
lemma setById_append {id : Nat} {f : WorkItem → WorkItem}
    {pre post : List WorkItem} {w : WorkItem}
    (hpre : ∀ b ∈ pre, ¬ b.id = id) (hw : w.id = id) :
    setById id f (pre ++ w :: post) = some (pre ++ f w :: post, f w) := by
  induction pre with
  | nil => simp [setById, hw]
  | cons x xs ih =>
    have hx : ¬ x.id = id := hpre x (List.mem_cons_self x xs)
    have ih' := ih (fun b hb => hpre b (List.mem_cons_of_mem x hb))
    simp only [List.cons_append, setById, hx, if_false, List.append_eq]
    rw [ih']

/-- A field projection untouched by the rewriting function is untouched
by `setById` across the whole list. -/
lemma setById_map {α : Type} {id : Nat} {f : WorkItem → WorkItem}
    {l l' : List WorkItem} {w' : WorkItem}
    (h : setById id f l = some (l', w')) (g : WorkItem → α)
    (hg : ∀ w, g (f w) = g w) :
    l'.map g = l.map g := by
  obtain ⟨pre, w, post, hl, _, _, _, hl'⟩ := setById_some_decomp h
  simp [hl, hl', hg]

/-- Members of the rewritten list are old members or the rewritten
item. -/
lemma setById_mem {id : Nat} {f : WorkItem → WorkItem}
    {l l' : List WorkItem} {w' b : WorkItem}
    (h : setById id f l = some (l', w')) (hb : b ∈ l') :
    b ∈ l ∨ ∃ w, w ∈ l ∧ w.id = id ∧ b = f w := by
  obtain ⟨pre, w, post, hl, _, hid, _, hl'⟩ := setById_some_decomp h
  rw [hl'] at hb
  rcases List.mem_append.1 hb with hb | hb
  · exact Or.inl (by rw [hl]; exact List.mem_append.2 (Or.inl hb))
  · rcases List.mem_cons.1 hb with rfl | hb
    · exact Or.inr ⟨w, by rw [hl]; simp, hid, rfl⟩
    · exact Or.inl (by rw [hl]; simp [hb])

/-- A failed `find?` means every element falsifies the predicate. -/
lemma find?_none {α : Type} {p : α → Bool} {l : List α}
    (h : l.find? p = none) : ∀ a ∈ l, p a = false := by
  induction l with
  | nil => intro a ha; cases ha
  | cons x xs ih =>
    intro a ha
    cases hx : p x with
    | true => rw [List.find?_cons_of_pos _ hx] at h; cases h
    | false =>
      rw [List.find?_cons_of_neg _ (by simp [hx])] at h
      rcases List.mem_cons.1 ha with rfl | ha
      · exact hx
      · exact ih h a ha

/-- Converse: a predicate false everywhere makes `find?` fail. -/
lemma find?_none_of_all {α : Type} {p : α → Bool} {l : List α}
    (h : ∀ a ∈ l, p a = false) : l.find? p = none := by
  induction l with
  | nil => rfl
  | cons x xs ih =>
    rw [List.find?_cons_of_neg _ (by simp [h x (List.mem_cons_self x xs)])]
    exact ih (fun a ha => h a (List.mem_cons_of_mem x ha))

/-- A ready item escaping a bucket scan cannot carry that bucket's
priority. -/
lemma not_ready_with {items : List WorkItem} {p : Priority} {it : WorkItem}
    (h : items.find? (readyWith p) = none) (hit : it ∈ items)
    (hr : it.status = Status.ready) : ¬ it.priority = p := by
  have hfalse := find?_none h it hit
  simp [readyWith, hr] at hfalse
  exact hfalse

/-- `findNextReady` fails exactly when no item is ready. -/
lemma findNextReady_none_iff {items : List WorkItem} :
    findNextReady items = none ↔ ∀ it ∈ items, ¬ it.status = Status.ready := by
  constructor
  · intro h
    unfold findNextReady at h
    cases h1 : items.find? (readyWith Priority.urgent) with
    | some w => rw [h1] at h; cases h
    | none =>
    rw [h1] at h
    cases h2 : items.find? (readyWith Priority.high) with
    | some w => rw [h2] at h; cases h
    | none =>
    rw [h2] at h
    cases h3 : items.find? (readyWith Priority.medium) with
    | some w => rw [h3] at h; cases h
    | none =>
    rw [h3] at h
    intro it hit hr
    cases hp : it.priority with
    | urgent => exact absurd hp (not_ready_with h1 hit hr)
    | high => exact absurd hp (not_ready_with h2 hit hr)
    | medium => exact absurd hp (not_ready_with h3 hit hr)
    | low => exact absurd hp (not_ready_with h hit hr)
  · intro hall
    have f : ∀ p : Priority, items.find? (readyWith p) = none := by
      intro p
      apply find?_none_of_all
      intro a ha
      simp [readyWith]
      intro hr
      exact absurd hr (hall a ha)
    unfold findNextReady
    simp only [f]

/-- A successful `findNextReady` returns a ready item, splits the list
at that item with no earlier ready item of the same priority, and the
item's priority rank is minimal among all ready items. -/
lemma findNextReady_some {items : List WorkItem} {w : WorkItem}
    (h : findNextReady items = some w) :
    w.status = Status.ready ∧
    ∃ pre post, items = pre ++ w :: post ∧
      (∀ b ∈ pre, ¬ (b.status = Status.ready ∧ b.priority = w.priority)) ∧
      (∀ it ∈ items, it.status = Status.ready →
        priorityRank w.priority ≤ priorityRank it.priority) := by
  unfold findNextReady at h
  cases h1 : items.find? (readyWith Priority.urgent) with
  | some v =>
    rw [h1] at h
    cases h
    obtain ⟨pre, post, hl, hp, hpre⟩ := find?_decomp h1
    simp only [readyWith, decide_eq_true_eq] at hp
    refine ⟨hp.1, pre, post, hl, ?_, ?_⟩
    · intro b hb hc
      have := hpre b hb
      simp [readyWith, hc.1, hp.2 ▸ hc.2] at this
    · intro it hit hr
      rw [hp.2]
      simp [priorityRank]
  | none =>
  rw [h1] at h
  cases h2 : items.find? (readyWith Priority.high) with
  | some v =>
    rw [h2] at h
    cases h
    obtain ⟨pre, post, hl, hp, hpre⟩ := find?_decomp h2
    simp only [readyWith, decide_eq_true_eq] at hp
    refine ⟨hp.1, pre, post, hl, ?_, ?_⟩
    · intro b hb hc
      have := hpre b hb
      simp [readyWith, hc.1, hp.2 ▸ hc.2] at this
    · intro it hit hr
      rw [hp.2]
      cases hip : it.priority with
      | urgent => exact absurd hip (not_ready_with h1 hit hr)
      | high => simp [priorityRank]
      | medium => simp [priorityRank]
      | low => simp [priorityRank]
  | none =>
  rw [h2] at h
  cases h3 : items.find? (readyWith Priority.medium) with
  | some v =>
    rw [h3] at h
    cases h
    obtain ⟨pre, post, hl, hp, hpre⟩ := find?_decomp h3
    simp only [readyWith, decide_eq_true_eq] at hp
    refine ⟨hp.1, pre, post, hl, ?_, ?_⟩
    · intro b hb hc
      have := hpre b hb
      simp [readyWith, hc.1, hp.2 ▸ hc.2] at this
    · intro it hit hr
      rw [hp.2]
      cases hip : it.priority with
      | urgent => exact absurd hip (not_ready_with h1 hit hr)
      | high => exact absurd hip (not_ready_with h2 hit hr)
      | medium => simp [priorityRank]
      | low => simp [priorityRank]
  | none =>
  rw [h3] at h
  obtain ⟨pre, post, hl, hp, hpre⟩ := find?_decomp h
  simp only [readyWith, decide_eq_true_eq] at hp
  refine ⟨hp.1, pre, post, hl, ?_, ?_⟩
  · intro b hb hc
    have := hpre b hb
    simp [readyWith, hc.1, hp.2 ▸ hc.2] at this
  · intro it hit hr
    rw [hp.2]
    cases hip : it.priority with
    | urgent => exact absurd hip (not_ready_with h1 hit hr)
    | high => exact absurd hip (not_ready_with h2 hit hr)
    | medium => exact absurd hip (not_ready_with h3 hit hr)
    | low => simp [priorityRank]

/-- Unfolding of `claim` when the scan finds an item. -/
lemma claim_found {now : Nat} {q : Queue} {a : String} {w : WorkItem}
    (hf : findNextReady q.items = some w) :
    claim now q a =
      match setById w.id (claimMark now a) q.items with
      | none => (q, none)
      | some (items', w') => ({ items := items' }, some w') := by
  unfold claim
  rw [hf]

/-- Unfolding of `claim` when no item is ready. -/
lemma claim_not_found {now : Nat} {q : Queue} {a : String}
    (hf : findNextReady q.items = none) :
    claim now q a = (q, none) := by
  unfold claim
  rw [hf]

/-- `claim` returns `null` exactly when no item is ready (no error in
either case). -/
lemma claim_res_none_iff {now : Nat} {q : Queue} {a : String} :
    (claim now q a).2 = none ↔ ∀ it ∈ q.items, ¬ it.status = Status.ready := by
  constructor
  · intro h
    cases hf : findNextReady q.items with
    | none => exact findNextReady_none_iff.1 hf
    | some w =>
      obtain ⟨hw, pre, post, hl, _, _⟩ := findNextReady_some hf
      have hmem : w ∈ q.items := by rw [hl]; simp
      cases hs : setById w.id (claimMark now a) q.items with
      | none => exact absurd rfl (setById_eq_none.1 hs w hmem)
      | some r =>
        cases r with
        | mk items' w' =>
          rw [claim_found hf, hs] at h
          exact Option.noConfusion h
  · intro hall
    rw [claim_not_found (findNextReady_none_iff.2 hall)]

/-- Full characterisation of a successful `claim` on a queue with
pairwise-distinct ids. -/
lemma claim_some_decomp {now : Nat} {q : Queue} {a : String} {x : WorkItem}
    (hids : (q.items.map (fun it => it.id)).Nodup)
    (h : (claim now q a).2 = some x) :
    ∃ pre w post,
      q.items = pre ++ w :: post ∧
      w.status = Status.ready ∧
      x = claimMark now a w ∧
      (claim now q a).1.items = pre ++ x :: post ∧
      (∀ it ∈ q.items, it.status = Status.ready →
        priorityRank w.priority ≤ priorityRank it.priority) ∧
      (∀ b ∈ pre, ¬ (b.status = Status.ready ∧ b.priority = w.priority)) := by
  cases hf : findNextReady q.items with
  | none =>
    rw [claim_not_found hf] at h
    exact Option.noConfusion h
  | some w =>
    obtain ⟨hw, pre, post, hl, hpre, hmin⟩ := findNextReady_some hf
    have hpreid : ∀ b ∈ pre, ¬ b.id = w.id := by
      intro b hb hbid
      rw [hl, List.map_append, List.map_cons] at hids
      have hd := List.disjoint_of_nodup_append hids
      exact hd (List.mem_map.2 ⟨b, hb, hbid⟩) (by simp)
    have hs := @setById_append w.id (claimMark now a) pre post w hpreid rfl
    have hcl : claim now q a =
        ({ items := pre ++ claimMark now a w :: post },
          some (claimMark now a w)) := by
      rw [claim_found hf, hl, hs]
    rw [hcl] at h
    injection h with hx
    exact ⟨pre, w, post, hl, hw, hx.symm, by rw [hcl, ← hx], hmin, hpre⟩

/-- `find?` skips a left part falsifying the predicate. -/
lemma find?_append_left_none {α : Type} {p : α → Bool} {l l' : List α}
    (h : ∀ a ∈ l, p a = false) : (l ++ l').find? p = l'.find? p := by
  induction l with
  | nil => rfl
  | cons x xs ih =>
    rw [List.cons_append,
      List.find?_cons_of_neg _ (by simp [h x (List.mem_cons_self x xs)])]
    exact ih (fun a ha => h a (List.mem_cons_of_mem x ha))

/-- The result of a successful `update`: the first item with the id is
rewritten by the merge. -/
lemma update_ok_decomp {now : Nat} {q : Queue} {id : Nat} {u : Updates}
    {res : Queue × WorkItem} (h : update now q id u = Except.ok res) :
    setById id (fun w => applyUpdates w u now) q.items =
      some (res.1.items, res.2) := by
  unfold update at h
  cases hs : setById id (fun w => applyUpdates w u now) q.items with
  | none => rw [hs] at h; exact Except.noConfusion h
  | some r =>
    cases r with
    | mk items' w2 =>
      rw [hs] at h
      injection h with h1
      cases h1
      rfl

/-- A present id makes `update` succeed with the merge applied at the
first occurrence. -/
lemma update_ok_of_get {now : Nat} {q : Queue} {id : Nat} {u : Updates}
    {w : WorkItem} (hget : get q id = some w) :
    ∃ pre post, q.items = pre ++ w :: post ∧ (∀ b ∈ pre, ¬ b.id = id) ∧
      update now q id u =
        Except.ok ({ items := pre ++ applyUpdates w u now :: post },
          applyUpdates w u now) := by
  obtain ⟨pre, post, hl, hp, hpre⟩ := find?_decomp hget
  have hwid : w.id = id := of_decide_eq_true hp
  have hpreid : ∀ b ∈ pre, ¬ b.id = id := by
    intro b hb
    have := hpre b hb
    simpa using this
  have hs := @setById_append id (fun v => applyUpdates v u now) pre post w
    hpreid hwid
  refine ⟨pre, post, hl, hpreid, ?_⟩
  unfold update
  rw [hl, hs]

/-- An absent id makes `update` fail with the NotFound error. -/
lemma update_error_of_absent {now : Nat} {q : Queue} {id : Nat} {u : Updates}
    (habs : ∀ it ∈ q.items, ¬ it.id = id) :
    update now q id u =
      Except.error ("Work item " ++ toString id ++ " not found") := by
  unfold update
  rw [setById_eq_none.2 habs]

end Lemmas

/-- Claim C9: `enqueue` always succeeds by appending, preserves every
caller-supplied field (with the documented defaults for the absent
ones), sets status `inbox` and the fresh id and equal timestamps, and a
subsequent `get` of the fresh id returns exactly the stored item. -/
theorem enqueue_get_roundtrip (gid now : Nat) (q : Queue)
    (input : EnqueueInput) (hfresh : ∀ it ∈ q.items, ¬ it.id = gid) :
    (enqueue gid now q input).1.items = q.items ++ [(enqueue gid now q input).2] ∧
    get (enqueue gid now q input).1 gid = some (enqueue gid now q input).2 ∧
    (enqueue gid now q input).2.id = gid ∧
    (enqueue gid now q input).2.title = input.title ∧
    (enqueue gid now q input).2.description = input.description.getD "" ∧
    (enqueue gid now q input).2.acceptanceCriteria = input.acceptanceCriteria.getD [] ∧
    (enqueue gid now q input).2.priority = input.priority.getD Priority.medium ∧
    (enqueue gid now q input).2.complexity = input.complexity.getD "m" ∧
    (enqueue gid now q input).2.createdBy = input.createdBy.getD "unknown" ∧
    (enqueue gid now q input).2.status = Status.inbox ∧
    (enqueue gid now q input).2.createdAt = now ∧
    (enqueue gid now q input).2.updatedAt = now := by
  refine ⟨rfl, ?_, rfl, rfl, rfl, rfl, rfl, rfl, rfl, rfl, rfl, rfl⟩
  show (q.items ++ [mkWorkItem gid now input]).find?
      (fun it => decide (it.id = gid)) = some (mkWorkItem gid now input)
  rw [find?_append_left_none (by
    intro a ha
    simpa using hfresh a ha)]
  simp [List.find?, mkWorkItem]

/-- Witness for C9 at a fresh id over the inbox queue. -/
theorem enqueue_get_roundtrip_witness :
    (∀ it ∈ exQueueInbox.items, ¬ it.id = 7) ∧
    get (enqueue 7 4 exQueueInbox { title := "new-task" }).1 7 =
      some (enqueue 7 4 exQueueInbox { title := "new-task" }).2 :=
  ⟨by decide,
   (enqueue_get_roundtrip 7 4 exQueueInbox { title := "new-task" }
     (by decide)).2.1⟩

/-- Counterexample for C4: `complete` on an item whose status is `inbox`
(neither `in_flight` nor `review`) is not rejected — it succeeds and
marks the item done. -/
theorem complete_unchecked_cex :
    ¬ exInboxItem.status = Status.in_flight ∧
    ¬ exInboxItem.status = Status.review ∧
    complete 3 exQueueInbox 1 [] =
      Except.ok ({ items := [exInboxItemDone] }, exInboxItemDone) :=
  ⟨by decide, by decide, rfl⟩

/-- Claim C4 (amended): `complete(id, artifacts)` on a present id always
succeeds, whatever the item's current status: it sets status `done`,
overwrites the artifacts with the given list (last write wins), clears
the assignment and stamps `completedAt`; the only failure is NotFound
for an absent id. -/
theorem complete_behavior (now : Nat) (q : Queue) (id : Nat)
    (arts : List Artifact) (w : WorkItem) (hget : get q id = some w) :
    (∃ pre post, q.items = pre ++ w :: post ∧
      complete now q id arts =
        Except.ok ({ items := pre ++ completeMark now arts w :: post },
          completeMark now arts w)) ∧
    (∀ q2 : Queue, (∀ it ∈ q2.items, ¬ it.id = id) →
      complete now q2 id arts =
        Except.error ("Work item " ++ toString id ++ " not found")) := by
  constructor
  · obtain ⟨pre, post, hl, _, hok⟩ := @update_ok_of_get now q id
      { status := some Status.done
        artifacts := some arts
        assignedAgentId := some none
        completedAt := some now } w hget
    exact ⟨pre, post, hl, hok⟩
  · intro q2 habs
    exact update_error_of_absent habs

/-- Witness for C4 at the inbox queue. -/
theorem complete_behavior_witness :
    get exQueueInbox 1 = some exInboxItem ∧
    (∃ pre post, exQueueInbox.items = pre ++ exInboxItem :: post ∧
      complete 3 exQueueInbox 1 [] =
        Except.ok ({ items := pre ++ completeMark 3 [] exInboxItem :: post },
          completeMark 3 [] exInboxItem)) :=
  ⟨by decide, (complete_behavior 3 exQueueInbox 1 [] exInboxItem (by decide)).1⟩

/-- Counterexample for C5: `ready` on an item whose status is `done` is
not rejected with an InvalidTransition error — it succeeds and rewrites
the item to `ready`. -/
theorem ready_from_done_cex :
    exDoneItem.status = Status.done ∧
    ready 4 exQueueDone 2 =
      Except.ok ({ items := [readyMark 4 exDoneItem] }, readyMark 4 exDoneItem) ∧
    ¬ readyMark 4 exDoneItem = exDoneItem :=
  ⟨rfl, rfl, by decide⟩

/-- Claim C5 (amended): `ready(id)` on a present id always succeeds and
sets status `ready`, from any current status including `done` and
`blocked` — no InvalidTransition check exists; the only rejection is
NotFound for an absent id. -/
theorem ready_behavior (now : Nat) (q : Queue) (id : Nat) (w : WorkItem)
    (hget : get q id = some w) :
    (∃ pre post, q.items = pre ++ w :: post ∧
      ready now q id =
        Except.ok ({ items := pre ++ readyMark now w :: post },
          readyMark now w)) ∧
    (∀ q2 : Queue, (∀ it ∈ q2.items, ¬ it.id = id) →
      ready now q2 id =
        Except.error ("Work item " ++ toString id ++ " not found")) := by
  constructor
  · obtain ⟨pre, post, hl, _, hok⟩ := @update_ok_of_get now q id
      { status := some Status.ready } w hget
    exact ⟨pre, post, hl, hok⟩
  · intro q2 habs
    exact update_error_of_absent habs

/-- Witness for C5 at the done queue. -/
theorem ready_behavior_witness :
    get exQueueDone 2 = some exDoneItem ∧
    (∃ pre post, exQueueDone.items = pre ++ exDoneItem :: post ∧
      ready 4 exQueueDone 2 =
        Except.ok ({ items := pre ++ readyMark 4 exDoneItem :: post },
          readyMark 4 exDoneItem)) :=
  ⟨by decide, (ready_behavior 4 exQueueDone 2 exDoneItem (by decide)).1⟩

/-- Claim C1: for every store state with distinct item ids, `claim`
returns the ready item of the highest priority class present, scanning
urgent > high > medium > low and breaking ties by insertion (list)
order; the returned item is stored and returned with status `in_flight`
and `assignedAgentId` set; and when no item is ready, `claim` returns
`null` rather than an error. -/
theorem claim_priority_spec (now : Nat) (q : Queue) (agentId : String)
    (hids : (q.items.map (fun it => it.id)).Nodup) :
    ClaimSpec now agentId q := by
  refine ⟨claim_res_none_iff, ?_⟩
  intro x hx
  obtain ⟨pre, w, post, hl, hw, hxw, hstate, hmin, hpre⟩ :=
    claim_some_decomp hids hx
  exact ⟨pre, w, post, hl, hw, hxw, hstate, hmin, hpre⟩

/-- Witness for C1 at the Scenario A queue (three ready items of
priorities low, urgent, medium). -/
theorem claim_priority_spec_witness :
    (exQueueA.items.map (fun it => it.id)).Nodup ∧
    ClaimSpec 5 "agent-1" exQueueA :=
  ⟨by decide, claim_priority_spec 5 exQueueA "agent-1" (by decide)⟩

/-- Claim C2: two serialised `claim` calls on the same project queue
(their bodies are mutually excluded by `withProjectLock`, so any
interleaving is equivalent to running one body after the other) never
return the same work-item id. -/
theorem claim_no_double_assignment (now1 now2 : Nat) (q : Queue)
    (a1 a2 : String) (x y : WorkItem)
    (hids : (q.items.map (fun it => it.id)).Nodup)
    (h1 : (claim now1 q a1).2 = some x)
    (h2 : (claim now2 (claim now1 q a1).1 a2).2 = some y) :
    ¬ x.id = y.id := by
  obtain ⟨pre, w, post, hl, hw, hxw, hstate, _, _⟩ := claim_some_decomp hids h1
  have hxid : x.id = w.id := by rw [hxw]; rfl
  have hids1 : ((claim now1 q a1).1.items.map (fun it => it.id)).Nodup := by
    rw [hstate, List.map_append, List.map_cons, hxid]
    rw [hl, List.map_append, List.map_cons] at hids
    exact hids
  obtain ⟨pre2, w2, post2, hl2, hw2, hyw2, _, _, _⟩ := claim_some_decomp hids1 h2
  intro hxy
  have hyid : y.id = w2.id := by rw [hyw2]; rfl
  have hx_mem : x ∈ (claim now1 q a1).1.items := by rw [hstate]; simp
  have hw2_mem : w2 ∈ (claim now1 q a1).1.items := by rw [hl2]; simp
  have heq : w2 = x :=
    List.inj_on_of_nodup_map hids1 hw2_mem hx_mem (by rw [← hyid, ← hxy])
  have : w2.status = Status.in_flight := by rw [heq, hxw]; rfl
  rw [hw2] at this
  cases this

/-- Witness for C2: both claims on a two-item ready queue succeed and
return distinct ids. -/
theorem claim_no_double_assignment_witness :
    (exQueueB.items.map (fun it => it.id)).Nodup ∧
    (claim 5 exQueueB "a").2 = some (claimMark 5 "a" (sampleReady 1 Priority.medium)) ∧
    (claim 6 (claim 5 exQueueB "a").1 "b").2 =
      some (claimMark 6 "b" (sampleReady 2 Priority.medium)) ∧
    ¬ (claimMark 5 "a" (sampleReady 1 Priority.medium)).id =
      (claimMark 6 "b" (sampleReady 2 Priority.medium)).id :=
  ⟨by decide, by decide, by decide,
   claim_no_double_assignment 5 6 exQueueB "a" "b"
     (claimMark 5 "a" (sampleReady 1 Priority.medium))
     (claimMark 6 "b" (sampleReady 2 Priority.medium))
     (by decide) (by decide) (by decide)⟩

/-- Counterexample for C6: `complete` moves an `inbox` item straight to
`done`, which is not an edge of the §4.1 state machine — status changes
are not confined to the state diagram. -/
theorem status_edge_violation_cex :
    exInboxItem.status = Status.inbox ∧
    specEdge Status.inbox Status.done = false ∧
    complete 3 exQueueInbox 1 [] =
      Except.ok ({ items := [exInboxItemDone] }, exInboxItemDone) :=
  ⟨rfl, rfl, rfl⟩

/-- Claim C6 (amended): every store mutation (`enqueue`, `update`,
`ready`, `complete`, `claim`) stamps the touched item's `updatedAt` with
the current time and never alters any item's `(id, createdAt)` stamp, so
`updatedAt ≥ createdAt` is preserved whenever the clock has not run
backwards; the §4.1 edge discipline is not enforced by the code (see the
counterexample) and is not part of this statement. -/
theorem store_timestamps (now : Nat) (q : Queue)
    (hinv : TimeInv q) (hclock : ∀ it ∈ q.items, it.createdAt ≤ now) :
    (∀ gid input, TimeInv (enqueue gid now q input).1 ∧
      createdStamp (enqueue gid now q input).1 = createdStamp q ++ [(gid, now)]) ∧
    (∀ id u res, update now q id u = Except.ok res →
      TimeInv res.1 ∧ createdStamp res.1 = createdStamp q) ∧
    (∀ id res, ready now q id = Except.ok res →
      TimeInv res.1 ∧ createdStamp res.1 = createdStamp q) ∧
    (∀ id arts res, complete now q id arts = Except.ok res →
      TimeInv res.1 ∧ createdStamp res.1 = createdStamp q) ∧
    (∀ a, TimeInv (claim now q a).1 ∧
      createdStamp (claim now q a).1 = createdStamp q) := by
  have hupd : ∀ id u (res : Queue × WorkItem),
      update now q id u = Except.ok res →
      TimeInv res.1 ∧ createdStamp res.1 = createdStamp q := by
    intro id u res h
    have hs := update_ok_decomp h
    constructor
    · intro it hit
      rcases setById_mem hs hit with hmem | ⟨v, hvmem, _, rfl⟩
      · exact hinv it hmem
      · exact hclock v hvmem
    · exact setById_map hs (fun it => (it.id, it.createdAt)) (fun v => rfl)
  refine ⟨?_, hupd, ?_, ?_, ?_⟩
  · intro gid input
    constructor
    · intro it hit
      have hit' : it ∈ q.items ++ [mkWorkItem gid now input] := hit
      rcases List.mem_append.1 hit' with hmem | hnew
      · exact hinv it hmem
      · rcases List.mem_singleton.1 hnew with rfl
        exact Nat.le_refl now
    · simp [createdStamp, enqueue, mkWorkItem]
  · intro id res h
    exact hupd id _ res h
  · intro id arts res h
    exact hupd id _ res h
  · intro a
    cases hf : findNextReady q.items with
    | none =>
      rw [claim_not_found hf]
      exact ⟨hinv, rfl⟩
    | some w =>
      have hmem : w ∈ q.items := by
        obtain ⟨_, pre, post, hl, _, _⟩ := findNextReady_some hf
        rw [hl]; simp
      cases hs : setById w.id (claimMark now a) q.items with
      | none => exact absurd rfl (setById_eq_none.1 hs w hmem)
      | some r =>
        cases r with
        | mk items' w' =>
          have hclaim : claim now q a = ({ items := items' }, some w') := by
            rw [claim_found hf, hs]
          rw [hclaim]
          constructor
          · intro it hit
            rcases setById_mem hs hit with hmem2 | ⟨v, hvmem, _, rfl⟩
            · exact hinv it hmem2
            · exact hclock v hvmem
          · exact setById_map hs (fun it => (it.id, it.createdAt)) (fun v => rfl)

/-- Witness for C6: the amended theorem applied at the inbox queue with
a later clock, read off at the `claim` conjunct. -/
theorem store_timestamps_witness :
    TimeInv exQueueInbox ∧ (∀ it ∈ exQueueInbox.items, it.createdAt ≤ 3) ∧
    (TimeInv (claim 3 exQueueInbox "a").1 ∧
      createdStamp (claim 3 exQueueInbox "a").1 = createdStamp exQueueInbox) :=
  ⟨by unfold TimeInv; decide, by decide,
   (store_timestamps 3 exQueueInbox (by unfold TimeInv; decide) (by decide)).2.2.2.2 "a"⟩

/-- Each bump of the non-scoped `stats` fold adds exactly one to the
summed counts. -/
lemma sumCounts_bump (acc : List (Status × Nat)) (s : Status) :
    sumCounts (bumpStatus acc s) = sumCounts acc + 1 := by
  induction acc with
  | nil => rfl
  | cons p rest ih =>
    cases p with
    | mk t n =>
      by_cases hts : t = s
      · simp only [bumpStatus, hts, if_true, sumCounts]
        omega
      · simp only [bumpStatus, hts, if_false, sumCounts, ih]
        omega

/-- The non-scoped `stats` fold counts every item exactly once. -/
lemma sumCounts_fold (items : List WorkItem) :
    ∀ acc, sumCounts (items.foldl (fun acc it => bumpStatus acc it.status) acc) =
      sumCounts acc + items.length := by
  induction items with
  | nil => intro acc; simp
  | cons w ws ih =>
    intro acc
    simp only [List.foldl_cons, List.length_cons]
    rw [ih (bumpStatus acc w.status), sumCounts_bump]
    omega

/-- Partition of the item count into the five fixed buckets plus the
uncounted `planning`/`review` items. -/
lemma length_partition (items : List WorkItem) :
    items.length =
      (items.filter (fun i => decide (i.status = Status.inbox))).length +
      (items.filter (fun i => decide (i.status = Status.ready))).length +
      (items.filter (fun i => decide (i.status = Status.in_flight))).length +
      (items.filter (fun i => decide (i.status = Status.done))).length +
      (items.filter (fun i => decide (i.status = Status.blocked))).length +
      (items.filter (fun i => decide (i.status = Status.planning ∨
        i.status = Status.review))).length := by
  induction items with
  | nil => rfl
  | cons w ws ih =>
    cases hw : w.status <;> simp [List.filter_cons, hw, ih] <;> omega

/-- Claim C10: the project-scoped `stats` reports only the five fixed
buckets, so a queue holding a `planning` or `review` item has a strictly
larger total than the sum of its reported buckets; the non-scoped
variant builds buckets from the statuses present, and its total always
equals the sum of its buckets. -/
theorem stats_buckets_divergence (q : Queue) (w : WorkItem)
    (hw : w ∈ q.items)
    (hst : w.status = Status.planning ∨ w.status = Status.review) :
    sumByStatus (statsIsolated q).2 < (statsIsolated q).1 ∧
    sumCounts (byStatusGeneric q.items) = q.items.length := by
  constructor
  · have hpart := length_partition q.items
    have hmemf : w ∈ q.items.filter (fun i => decide (i.status = Status.planning ∨
        i.status = Status.review)) := List.mem_filter.2 ⟨hw, by simpa using hst⟩
    have hpos : 0 < (q.items.filter (fun i => decide (i.status = Status.planning ∨
        i.status = Status.review))).length :=
      List.length_pos.2 (List.ne_nil_of_mem hmemf)
    show sumByStatus (statsIsolated q).2 < q.items.length
    simp only [statsIsolated, sumByStatus]
    omega
  · simpa [byStatusGeneric, sumCounts] using sumCounts_fold q.items []

/-- Witness for C10 at a one-item `planning` queue. -/
theorem stats_buckets_divergence_witness :
    exPlanningItem ∈ exQueuePlanning.items ∧
    (exPlanningItem.status = Status.planning ∨
      exPlanningItem.status = Status.review) ∧
    (sumByStatus (statsIsolated exQueuePlanning).2 < (statsIsolated exQueuePlanning).1 ∧
      sumCounts (byStatusGeneric exQueuePlanning.items) = exQueuePlanning.items.length) :=
  ⟨by decide, by decide,
   stats_buckets_divergence exQueuePlanning exPlanningItem (by decide) (by decide)⟩

/-- Unfolding of `checkCompletion` once the session is found. -/
lemma checkCompletion_found {fsys : List (String × String)}
    {sessions : List Session} {agentId : String} {session : Session}
    (hfind : sessions.find? (fun s => decide (s.id = agentId)) = some session) :
    checkCompletion fsys sessions agentId =
      match fsRead fsys (session.artifactsDir ++ "/COMPLETION.md") with
      | some content => some (CheckResult.completed content)
      | none =>
        match fsRead fsys (session.workspaceDir ++ "/BLOCKED.md") with
        | some content => some (CheckResult.blocked content)
        | none => some CheckResult.working := by
  unfold checkCompletion
  rw [hfind]

/-- Claim C7: `checkCompletion` of a known session reports completed
with the completion marker's content when that marker exists (priority
over the blocked marker), blocked with the blocked marker's literal
content when only the blocked marker exists, and still-working when
neither marker exists. -/
theorem checkCompletion_spec (fsys : List (String × String))
    (sessions : List Session) (agentId : String) (session : Session)
    (hfind : sessions.find? (fun s => decide (s.id = agentId)) = some session) :
    (∀ c, fsRead fsys (session.artifactsDir ++ "/COMPLETION.md") = some c →
      checkCompletion fsys sessions agentId = some (CheckResult.completed c)) ∧
    (fsRead fsys (session.artifactsDir ++ "/COMPLETION.md") = none →
      ∀ c, fsRead fsys (session.workspaceDir ++ "/BLOCKED.md") = some c →
        checkCompletion fsys sessions agentId = some (CheckResult.blocked c)) ∧
    (fsRead fsys (session.artifactsDir ++ "/COMPLETION.md") = none →
      fsRead fsys (session.workspaceDir ++ "/BLOCKED.md") = none →
      checkCompletion fsys sessions agentId = some CheckResult.working) := by
  refine ⟨?_, ?_, ?_⟩
  · intro c hc
    rw [checkCompletion_found hfind, hc]
  · intro hnone c hc
    rw [checkCompletion_found hfind, hnone, hc]
  · intro h1 h2
    rw [checkCompletion_found hfind, h1, h2]

/-- Witness for C7, Scenario C: only the blocked marker exists, and the
probe reports blocked with the marker's literal content. -/
theorem checkCompletion_spec_witness :
    ([exSession].find? (fun s => decide (s.id = "a1")) = some exSession) ∧
    fsRead exFsBlocked (exSession.artifactsDir ++ "/COMPLETION.md") = none ∧
    fsRead exFsBlocked (exSession.workspaceDir ++ "/BLOCKED.md") =
      some "stuck: need credentials" ∧
    checkCompletion exFsBlocked [exSession] "a1" =
      some (CheckResult.blocked "stuck: need credentials") :=
  ⟨by decide, by decide, by decide,
   (checkCompletion_spec exFsBlocked [exSession] "a1" exSession
      (by decide)).2.1 (by decide) "stuck: need credentials" (by decide)⟩

/-- Structural facts about a single `_spawn` step: the pending queue and
cap are untouched and at most one running entry is added. -/
lemma spawnOne_state (now : Nat) (a : String) (st : ExecState) (w : WorkItem) :
    (spawnOne now a st w).1.pendingSpawns = st.pendingSpawns ∧
    (spawnOne now a st w).1.maxConcurrent = st.maxConcurrent ∧
    (spawnOne now a st w).1.running.length ≤ st.running.length + 1 := by
  unfold spawnOne
  cases update now st.queue w.id
      { status := some Status.in_flight,
        assignedAgentId := some (some a) } with
  | error e => exact ⟨rfl, rfl, Nat.le_succ _⟩
  | ok p =>
    cases p with
    | mk q2 w2 => exact ⟨rfl, rfl, by simp⟩

/-- Structural facts about a spawn batch: the pending queue and cap are
untouched and the running table grows by at most the batch size. -/
lemma spawnAll_state (now : Nat) :
    ∀ (l : List (String × WorkItem)) (st : ExecState),
    (spawnAll now st l).1.pendingSpawns = st.pendingSpawns ∧
    (spawnAll now st l).1.maxConcurrent = st.maxConcurrent ∧
    (spawnAll now st l).1.running.length ≤ st.running.length + l.length := by
  intro l
  induction l with
  | nil => intro st; exact ⟨rfl, rfl, Nat.le_refl _⟩
  | cons p rest ih =>
    intro st
    cases p with
    | mk a w =>
      obtain ⟨hp1, hm1, hr1⟩ := spawnOne_state now a st w
      simp only [spawnAll]
      cases hso : spawnOne now a st w with
      | mk st1 r =>
        rw [hso] at hp1 hm1 hr1
        have hp1' : st1.pendingSpawns = st.pendingSpawns := hp1
        have hm1' : st1.maxConcurrent = st.maxConcurrent := hm1
        have hr1' : st1.running.length ≤ st.running.length + 1 := hr1
        cases r with
        | error e =>
          refine ⟨hp1', hm1', ?_⟩
          show st1.running.length ≤ st.running.length + (rest.length + 1)
          omega
        | ok u =>
          obtain ⟨hp2, hm2, hr2⟩ := ih st1
          refine ⟨hp2.trans hp1', hm2.trans hm1', ?_⟩
          show (spawnAll now st1 rest).1.running.length ≤
            st.running.length + (rest.length + 1)
          omega

/-- Counterexample for C3: three consecutive `executeNext(1)` calls on
an executor capped at two dispatch three sessions — `executeNext` (like
`executeItem`) never checks `running.size` against `maxConcurrent`, so
the bound fails for such sequences of dispatch operations. -/
theorem dispatch_cap_exceeded_cex :
    exExec3.maxConcurrent = 2 ∧ exExec3.running.length = 3 ∧
    ¬ exExec3.running.length ≤ exExec3.maxConcurrent :=
  ⟨by decide, by decide, by decide⟩

/-- Claim C3 (amended): the cap is respected by the `executeProject` /
`_processQueue` path — a single `executeProject` on an idle engine
spawns at most `maxConcurrent` items and appends the overflow ids to
`pendingSpawns` in order, and `_processQueue` does nothing at or above
the cap and otherwise dispatches the head (oldest) pending id — but the
bound is not a global invariant: `executeItem`/`executeNext` spawn
without checking the running count (see the counterexample). -/
theorem dispatch_cap_scoped (now : Nat) (st : ExecState)
    (projItems : List WorkItem) (agentIds : List String)
    (hrun : st.running = []) :
    ((executeProject now st projItems agentIds).1.running.length ≤
      st.maxConcurrent) ∧
    (∀ q1, readyAllItems now st.queue projItems = Except.ok q1 →
      (executeProject now st projItems agentIds).1.pendingSpawns =
        st.pendingSpawns ++
          ((projItems.filter eligStatus).drop st.maxConcurrent).map
            (fun i => i.id)) ∧
    (∀ (st2 : ExecState) (a : String),
      st2.maxConcurrent ≤ st2.running.length →
      processQueue now st2 a = (st2, Except.ok ())) ∧
    (∀ (st2 : ExecState) (a : String) (p : Nat) (rest : List Nat),
      st2.pendingSpawns = p :: rest →
      st2.running.length < st2.maxConcurrent →
      processQueue now st2 a =
        executeItem now { st2 with pendingSpawns := rest } p a) := by
  refine ⟨?_, ?_, ?_, ?_⟩
  · unfold executeProject
    cases hra : readyAllItems now st.queue projItems with
    | error e => simp [hrun]
    | ok q1 =>
      obtain ⟨_, _, hr⟩ := spawnAll_state now
        (agentIds.zip ((projItems.filter eligStatus).take st.maxConcurrent))
        { st with
          queue := q1
          pendingSpawns := st.pendingSpawns ++
            ((projItems.filter eligStatus).drop st.maxConcurrent).map
              (fun i => i.id) }
      refine le_trans hr ?_
      simp only [hrun, List.length_nil, List.length_zip, List.length_take,
        Nat.zero_add]
      omega
  · intro q1 hq1
    unfold executeProject
    rw [hq1]
    obtain ⟨hp, _, _⟩ := spawnAll_state now
      (agentIds.zip ((projItems.filter eligStatus).take st.maxConcurrent))
      { st with
        queue := q1
        pendingSpawns := st.pendingSpawns ++
          ((projItems.filter eligStatus).drop st.maxConcurrent).map
            (fun i => i.id) }
    exact hp
  · intro st2 a hcap
    unfold processQueue
    cases hps : st2.pendingSpawns with
    | nil => rfl
    | cons p rest =>
      show (if st2.maxConcurrent ≤ st2.running.length then (st2, Except.ok ())
        else executeItem now { st2 with pendingSpawns := rest } p a) =
        (st2, Except.ok ())
      rw [if_pos hcap]
  · intro st2 a p rest hps hlt
    unfold processQueue
    rw [hps]
    show (if st2.maxConcurrent ≤ st2.running.length then (st2, Except.ok ())
      else executeItem now { st2 with pendingSpawns := rest } p a) =
      executeItem now { st2 with pendingSpawns := rest } p a
    rw [if_neg (Nat.not_le.2 hlt)]

/-- Witness for C3 at Scenario D: `maxConcurrent = 2`, three ready
items, idle engine — two are dispatched, the third id is queued. -/
theorem dispatch_cap_scoped_witness :
    exExec0.running = [] ∧
    readyAllItems 10 exExec0.queue exReadyQueue3.items = Except.ok exReadyQueue3 ∧
    (executeProject 10 exExec0 exReadyQueue3.items ["a", "b", "c"]).1.running.length ≤
      exExec0.maxConcurrent ∧
    (executeProject 10 exExec0 exReadyQueue3.items ["a", "b", "c"]).1.pendingSpawns =
      exExec0.pendingSpawns ++
        ((exReadyQueue3.items.filter eligStatus).drop exExec0.maxConcurrent).map
          (fun i => i.id) ∧
    (executeProject 10 exExec0 exReadyQueue3.items ["a", "b", "c"]).1.running.length = 2 :=
  ⟨rfl, by rfl,
   (dispatch_cap_scoped 10 exExec0 exReadyQueue3.items ["a", "b", "c"] rfl).1,
   (dispatch_cap_scoped 10 exExec0 exReadyQueue3.items ["a", "b", "c"] rfl).2.1
     exReadyQueue3 (by rfl),
   by decide⟩

/-- Counterexample for C8: when the store update of `_spawn` fails (the
item is absent from the store), the already-recorded agent session is
not rolled back — the session table keeps the new session. -/
theorem spawn_no_rollback_cex :
    (spawnOne 5 "a" exExecEmptyQ exGhostItem).2 =
      Except.error ("Work item 7 not found") ∧
    (spawnOne 5 "a" exExecEmptyQ exGhostItem).1.sessions = [mkSession "a" 7] ∧
    ¬ (spawnOne 5 "a" exExecEmptyQ exGhostItem).1.sessions = exExecEmptyQ.sessions :=
  ⟨rfl, rfl, by decide⟩

/-- Claim C8 (amended): when the store update of `_spawn` fails, the
failure propagates before the executor records the agent in its
`running` table and before the store changes, so no session is recorded
as running without a matching `in_flight` item; but the spawn itself is
not rolled back — the AgentManager session table retains the freshly
recorded session (status `starting`). -/
theorem spawn_failure_semantics (now : Nat) (agentId : String)
    (st : ExecState) (w : WorkItem) (e : String)
    (herr : (spawnOne now agentId st w).2 = Except.error e) :
    (spawnOne now agentId st w).1.running = st.running ∧
    (spawnOne now agentId st w).1.queue = st.queue ∧
    (spawnOne now agentId st w).1.pendingSpawns = st.pendingSpawns ∧
    (spawnOne now agentId st w).1.sessions =
      st.sessions ++ [mkSession agentId w.id] := by
  unfold spawnOne at herr ⊢
  cases hu : update now st.queue w.id
      { status := some Status.in_flight,
        assignedAgentId := some (some agentId) } with
  | error e2 => exact ⟨rfl, rfl, rfl, rfl⟩
  | ok p =>
    cases p with
    | mk q2 w2 =>
      rw [hu] at herr
      exact Except.noConfusion herr

/-- Witness for C8 at the empty store. -/
theorem spawn_failure_semantics_witness :
    (spawnOne 5 "b" exExecEmptyQ exGhostItem).2 =
      Except.error ("Work item 7 not found") ∧
    ((spawnOne 5 "b" exExecEmptyQ exGhostItem).1.running = exExecEmptyQ.running ∧
     (spawnOne 5 "b" exExecEmptyQ exGhostItem).1.queue = exExecEmptyQ.queue ∧
     (spawnOne 5 "b" exExecEmptyQ exGhostItem).1.pendingSpawns =
       exExecEmptyQ.pendingSpawns ∧
     (spawnOne 5 "b" exExecEmptyQ exGhostItem).1.sessions =
       exExecEmptyQ.sessions ++ [mkSession "b" 7]) :=
  ⟨rfl, spawn_failure_semantics 5 "b" exExecEmptyQ exGhostItem
    "Work item 7 not found" rfl⟩

end Orchestrator
